import Mathlib

/-!
Verification of the aspect-based movie-review sentiment analyzer.

Shallow embedding of the analysis core (`src/sentiment_analyzer.py` and
`src/app/preprocessing.py`, configuration constants from `src/app/config.py`).

Modelling conventions:
* Python exceptions are modelled with `Except Exn`, where `Exn` records the
  exception type name (`type(e).__name__`) and its message.
* Python floats are modelled as rationals (`ℚ`); the claims under study only
  depend on ordered-field comparisons and exact decimal rounding.
* External library boundaries (the NLTK sentence tokenizer, the sentence
  transformer encoder, the zero-shot classification pipeline, the OpenAI
  client, the JSON decoder) are oracle functions gathered in environment
  structures, returning `Except Exn` values so that their failure modes can be
  quantified over.  Pure repository code is translated directly.
* Python `str` is modelled by `String`; `str.strip()` and the regular
  expressions of the source are modelled character-by-character over `.data`
  (for `\s` the ASCII whitespace characters, which are the ones the claims
  exercise).
-/

deriving instance DecidableEq for Except

/-- Model of a raised Python exception: `kind` is `type(e).__name__` and
`msg` is `str(e)`. -/
structure Exn where
  kind : String
  msg : String
deriving Repr, DecidableEq

/-- The string `f"{type(e).__name__}: {e}"` used by `analyze`'s handler. -/
def Exn.render (e : Exn) : String := e.kind ++ ": " ++ e.msg

/-- ASCII whitespace, modelling Python's `\s` class and `str.strip()`
(the repository only feeds it ASCII text). -/
def isPyWs (c : Char) : Bool :=
  c = ' ' || c = '\t' || c = '\n' || c = '\r' || c = '\x0b' || c = '\x0c'

/-- Python `str.strip()` on a character list. -/
def stripChars (l : List Char) : List Char :=
  ((l.dropWhile isPyWs).reverse.dropWhile isPyWs).reverse

/-- Python `str.strip()`. -/
def pyStrip (s : String) : String := (stripChars s.data).asString

/-! ## `clean_text` (src/app/preprocessing.py, lines 20-38)

Three regex substitutions, modelled as left-to-right scans exactly as
`re.sub` applies non-overlapping matches:
1. `re.sub(r"<br\s*/?>", " ", review)`
2. `re.sub(r'([.!?])(?=[A-Za-z])', r'\1 ', cleaned)`
3. `re.sub(r'\s+', ' ', cleaned).strip()`
-/

theorem dropWhile_length_le (p : Char → Bool) (l : List Char) :
    (l.dropWhile p).length ≤ l.length := by
  induction l with
  | nil => simp [List.dropWhile]
  | cons c cs ih =>
    by_cases h : p c <;> simp [List.dropWhile, h] <;> omega

/-- Attempt to match the regex `<br\s*/?>` at the head of the list; on success
return the remainder after the match (the regex is case sensitive: no flags
are passed to `re.sub`). -/
def matchBr (l : List Char) : Option (List Char) :=
  if l.take 3 = "<br".data then
    let rest := (l.drop 3).dropWhile isPyWs
    if rest.take 2 = "/>".data then some (rest.drop 2)
    else if rest.take 1 = ">".data then some (rest.drop 1)
    else none
  else none

theorem matchBr_length {l r : List Char} (h : matchBr l = some r) :
    r.length < l.length := by
  unfold matchBr at h
  by_cases h3 : l.take 3 = "<br".data
  · have hlen : 3 ≤ l.length := by
      have := congrArg List.length h3
      simp [List.length_take] at this
      omega
    have hrest : ((l.drop 3).dropWhile isPyWs).length ≤ l.length - 3 := by
      have h1 := dropWhile_length_le isPyWs (l.drop 3)
      simpa [List.length_drop] using h1
    rw [if_pos h3] at h
    by_cases h2 : ((l.drop 3).dropWhile isPyWs).take 2 = "/>".data
    · rw [if_pos h2] at h
      cases h
      have := List.length_drop 2 ((l.drop 3).dropWhile isPyWs)
      omega
    · rw [if_neg h2] at h
      by_cases h1 : ((l.drop 3).dropWhile isPyWs).take 1 = ">".data
      · rw [if_pos h1] at h
        cases h
        have := List.length_drop 1 ((l.drop 3).dropWhile isPyWs)
        omega
      · rw [if_neg h1] at h; cases h
  · rw [if_neg h3] at h; cases h

/-- Fuel-indexed recursion for `subBr`; the fuel argument only serves
structural recursion and is irrelevant once it dominates the list length
(`subBrF_eq`). -/
def subBrF : Nat → List Char → List Char
  | 0, _ => []
  | fuel + 1, l =>
    match matchBr l with
    | some rest => ' ' :: subBrF fuel rest
    | none =>
      match l with
      | [] => []
      | c :: cs => c :: subBrF fuel cs

theorem matchBr_nil : matchBr [] = none := rfl

theorem subBrF_succ (fuel : Nat) (l : List Char) :
    subBrF (fuel + 1) l =
      match matchBr l with
      | some rest => ' ' :: subBrF fuel rest
      | none =>
        match l with
        | [] => []
        | c :: cs => c :: subBrF fuel cs := rfl

theorem subBrF_nil (fuel : Nat) : subBrF fuel [] = [] := by
  cases fuel <;> rfl

theorem subBrF_eq :
    ∀ {f1 : Nat} {l : List Char} (f2 : Nat), l.length ≤ f1 → l.length ≤ f2 →
      subBrF f1 l = subBrF f2 l := by
  intro f1
  induction f1 with
  | zero =>
    intro l f2 h1 _
    have : l = [] := List.length_eq_zero.mp (Nat.le_zero.mp h1)
    subst this
    rw [subBrF_nil, subBrF_nil]
  | succ g ih =>
    intro l f2 h1 h2
    cases l with
    | nil => rw [subBrF_nil, subBrF_nil]
    | cons c cs =>
      have hpos : 0 < (c :: cs).length := by simp
      cases f2 with
      | zero => omega
      | succ g2 =>
        rw [subBrF_succ, subBrF_succ]
        cases hm : matchBr (c :: cs) with
        | some rest =>
          have hr := matchBr_length hm
          have e1 : subBrF g rest = subBrF g2 rest := by
            apply ih
            · simp only [List.length_cons] at hr h1; omega
            · simp only [List.length_cons] at hr h2; omega
          simp only [e1]
        | none =>
          have e1 : subBrF g cs = subBrF g2 cs := by
            apply ih
            · simp only [List.length_cons] at h1; omega
            · simp only [List.length_cons] at h2; omega
          simp only [e1]

/-- `re.sub(r"<br\s*/?>", " ", _)`: replace every non-overlapping match,
scanning left to right. -/
def subBr (l : List Char) : List Char := subBrF l.length l

theorem subBr_nil : subBr [] = [] := rfl

theorem subBr_match {l rest : List Char} (h : matchBr l = some rest) :
    subBr l = ' ' :: subBr rest := by
  unfold subBr
  cases hl : l.length with
  | zero =>
    have : l = [] := List.length_eq_zero.mp hl
    subst this
    rw [matchBr_nil] at h
    cases h
  | succ m =>
    rw [subBrF_succ, h]
    have hr := matchBr_length h
    rw [hl] at hr
    exact congrArg (' ' :: ·) (subBrF_eq rest.length (by omega) (le_refl _))

theorem subBr_nomatch {c : Char} {cs : List Char} (h : matchBr (c :: cs) = none) :
    subBr (c :: cs) = c :: subBr cs := by
  unfold subBr
  show subBrF (cs.length + 1) (c :: cs) = _
  rw [subBrF_succ, h]

/-- ASCII letter, modelling the regex class `[A-Za-z]`. -/
def isAsciiLetter (c : Char) : Bool :=
  ('A' ≤ c && c ≤ 'Z') || ('a' ≤ c && c ≤ 'z')

/-- Sentence-ending punctuation, the regex class `([.!?])`. -/
def isSentEnd (c : Char) : Bool := c = '.' || c = '!' || c = '?'

/-- `re.sub(r'([.!?])(?=[A-Za-z])', r'\1 ', _)`: insert a space after
sentence-ending punctuation immediately followed by a letter (the lookahead
consumes nothing, so scanning resumes at the letter). -/
def subPunct : List Char → List Char
  | [] => []
  | c :: cs =>
    if isSentEnd c && (match cs with | d :: _ => isAsciiLetter d | [] => false)
    then c :: ' ' :: subPunct cs
    else c :: subPunct cs

/-- Fuel-indexed recursion for `collapseWs`; fuel irrelevant once it
dominates the list length (`collapseWsF_eq`). -/
def collapseWsF : Nat → List Char → List Char
  | 0, _ => []
  | _ + 1, [] => []
  | fuel + 1, c :: cs =>
    if isPyWs c then ' ' :: collapseWsF fuel (cs.dropWhile isPyWs)
    else c :: collapseWsF fuel cs

theorem collapseWsF_succ (fuel : Nat) (c : Char) (cs : List Char) :
    collapseWsF (fuel + 1) (c :: cs) =
      if isPyWs c then ' ' :: collapseWsF fuel (cs.dropWhile isPyWs)
      else c :: collapseWsF fuel cs := rfl

theorem collapseWsF_eq :
    ∀ {f1 : Nat} {l : List Char} (f2 : Nat), l.length ≤ f1 → l.length ≤ f2 →
      collapseWsF f1 l = collapseWsF f2 l := by
  intro f1
  induction f1 with
  | zero =>
    intro l f2 h1 _
    have : l = [] := List.length_eq_zero.mp (Nat.le_zero.mp h1)
    subst this
    cases f2 <;> rfl
  | succ g ih =>
    intro l f2 h1 h2
    cases l with
    | nil => cases f2 <;> rfl
    | cons c cs =>
      cases f2 with
      | zero => simp at h2
      | succ g2 =>
        rw [collapseWsF_succ, collapseWsF_succ]
        simp only [List.length_cons] at h1 h2
        by_cases hc : isPyWs c
        · have hd := dropWhile_length_le isPyWs cs
          rw [if_pos hc, if_pos hc, ih g2 (by omega) (by omega)]
        · rw [if_neg hc, if_neg hc, ih g2 (by omega) (by omega)]

/-- `re.sub(r'\s+', ' ', _)`: collapse every maximal whitespace run into a
single space. -/
def collapseWs (l : List Char) : List Char := collapseWsF l.length l

theorem collapseWs_nil : collapseWs [] = [] := rfl

theorem collapseWs_ws {c : Char} {cs : List Char} (h : isPyWs c) :
    collapseWs (c :: cs) = ' ' :: collapseWs (cs.dropWhile isPyWs) := by
  unfold collapseWs
  show collapseWsF (cs.length + 1) (c :: cs) = _
  rw [collapseWsF_succ, if_pos h]
  have hd := dropWhile_length_le isPyWs cs
  rw [collapseWsF_eq (cs.dropWhile isPyWs).length (by omega) (le_refl _)]

theorem collapseWs_nonws {c : Char} {cs : List Char} (h : ¬ isPyWs c) :
    collapseWs (c :: cs) = c :: collapseWs cs := by
  unfold collapseWs
  show collapseWsF (cs.length + 1) (c :: cs) = _
  rw [collapseWsF_succ, if_neg h]

/-- `clean_text` on character lists: the three substitutions followed by
`.strip()`. -/
def cleanList (l : List Char) : List Char :=
  stripChars (collapseWs (subPunct (subBr l)))

/-- `clean_text` (src/app/preprocessing.py): remove HTML line breaks, restore
a space after run-together sentence punctuation, collapse whitespace, strip. -/
def clean_text (review : String) : String := (cleanList review.data).asString

/-! ## Numeric helpers -/

/-- Python `round(x, 3)` (banker's rounding, ties to even), on the rational
model of floats. -/
def roundHalfEven (x : ℚ) : ℤ :=
  let f := ⌊x⌋
  if x - f < 1/2 then f
  else if 1/2 < x - f then f + 1
  else if f % 2 = 0 then f else f + 1

/-- `round(score, 3)` from `nli_aspect_sentiment`. -/
def pyRound3 (x : ℚ) : ℚ := (roundHalfEven (x * 1000) : ℚ) / 1000

/-! ## Aspect Relevance Ranker (src/sentiment_analyzer.py, lines 59-117)

`embed_sentences` is an external model call (see `NliEnv.encode` below); its
result is abstracted as a similarity function `sim : aspect → sentence → ℚ`
standing for `util.cos_sim` of the two embeddings.
-/

/-- `top_k_sentences_per_aspect` (lines 76-101): clamp `k` to the sentence
count, return an empty selection per aspect when it reaches zero, otherwise
pick each aspect's top-`k` sentences by cosine similarity.  The call
`torch.topk(sims, k).indices` at line 99 is an external kernel and is passed
in as the oracle `topk`: its documented contract fixes which values are
selected and that they come back in descending value order, but it leaves the
order among equal values unspecified (the CPU kernel compares values only,
through an unstable partial sort), so no tie-break behaviour is modelled.
The Python dict keyed by aspect is modelled as an association list in aspect
order (duplicate aspects map to identical values, so first-match lookup
agrees with the dict). -/
def top_k_sentences_per_aspect (topk : List ℚ → Nat → List Nat)
    (sentences : List String) (aspects : List String)
    (sim : String → String → ℚ) (k : Nat) : List (String × List String) :=
  let k' := min k sentences.length
  if k' = 0 then aspects.map fun a => (a, [])
  else aspects.map fun a =>
    (a, (topk (sentences.map (sim a)) k').map fun j => sentences.getD j "")

/-- `concat_asp_sentences` (lines 104-117): space-join each aspect's selected
sentences. -/
def concat_asp_sentences (top3 : List (String × List String)) :
    List (String × String) :=
  top3.map fun p => (p.1, String.intercalate " " p.2)

/-! ## Local Classifier Strategy (src/sentiment_analyzer.py, lines 120-183) -/

/-- The fixed candidate label set `sentiments = ["positive", "negative",
"neutral"]` (line 137). -/
def sentiments : List String := ["positive", "negative", "neutral"]

/-- Result of one zero-shot classification call: labels ranked by descending
confidence together with their scores (the `res["labels"]` / `res["scores"]`
fields used by the source). -/
structure ZscRes where
  labels : List String
  scores : List ℚ
deriving Repr, DecidableEq

/-- External boundaries used by `nli_aspect_sentiment`:
* `sent_tokenize` — NLTK sentence segmentation (`get_sentences`);
* `encode` — `embed_sentences`; on success it yields the cosine-similarity
  function of the computed embeddings, on failure the raised exception;
* `pipeline` — the lazily loaded classification pipeline
  (`_get_zsc_pipeline()`), whose construction may raise;
* `topk` — the `torch.topk(sims, k).indices` kernel used by the ranker; its
  tie order is unspecified by the library, so it is an oracle rather than a
  fixed function;
* `zsc` — one classification call `zsc(text, candidate_labels=sentiments,
  hypothesis_template=...)`, as a function of the focused text and the aspect
  named in the hypothesis template. -/
structure NliEnv where
  sent_tokenize : String → Except Exn (List String)
  encode : List String → List String → Except Exn (String → String → ℚ)
  topk : List ℚ → Nat → List Nat
  pipeline : Except Exn Unit
  zsc : String → String → Except Exn ZscRes

/-- The preprocessing `try` block of `nli_aspect_sentiment` (lines 140-160):
clean, segment, and either use the whole cleaned text (short reviews), the
ranked snippets, or fall back to the cleaned text on any preprocessing
exception.  Returns the `cleaned` text together with the `aspect_snippets`
association list.  `clean_text` itself is pure in the model (it is a total
Python function of its string argument), so `cleaned` is always
`clean_text review`. -/
def nli_snippets (env : NliEnv) (review : String) (aspects : List String) :
    String × List (String × String) :=
  let cleaned := clean_text review
  match env.sent_tokenize cleaned with
  | .error _ => (cleaned, aspects.map fun a => (a, cleaned))
  | .ok sentences =>
    if sentences.length ≤ 3 then (cleaned, aspects.map fun a => (a, cleaned))
    else
      match env.encode sentences aspects with
      | .error _ => (cleaned, aspects.map fun a => (a, cleaned))
      | .ok sim =>
        (cleaned,
          concat_asp_sentences (top_k_sentences_per_aspect env.topk sentences aspects sim 3))

/-- `aspect_snippets.get(a, review)` (line 166): the snippet for aspect `a`,
defaulting to the raw review when the aspect is absent from the dict. -/
def pySnippet (env : NliEnv) (review : String) (aspects : List String)
    (a : String) : String :=
  (((nli_snippets env review aspects).2).lookup a).getD review

/-- One row (dict) produced by `nli_aspect_sentiment`. -/
structure NliRow where
  aspect : String
  sentiment : String
  confidence : ℚ
deriving Repr, DecidableEq

/-- The per-aspect body of the loop at lines 164-181: an exception from the
classification call yields the `{aspect, "error", 0.0}` row; otherwise the
winning label is overridden to `"not_mentioned"` below the threshold.  An
empty `labels` or `scores` list models the `IndexError` of `res["labels"][0]`
or `res["scores"][0]`, which the same `except` catches. -/
def nli_aspect_row (zr : Except Exn ZscRes) (threshold : ℚ) (a : String) :
    NliRow :=
  match zr with
  | .error _ => ⟨a, "error", 0⟩
  | .ok res =>
    match res.labels, res.scores with
    | label :: _, score :: _ =>
      ⟨a, if score < threshold then "not_mentioned" else label, pyRound3 score⟩
    | _, _ => ⟨a, "error", 0⟩

/-- `nli_aspect_sentiment` (lines 120-183).  The `threshold` argument is the
resolved threshold (the source substitutes `DEFAULT_NLI_THRESHOLD` for
`None`; `analyze` always calls it with the default).  Only the pipeline
construction (line 162) can abort the whole call; every per-aspect exception
is folded into that aspect's row. -/
def nli_aspect_sentiment (env : NliEnv) (review : String)
    (aspects : List String) (threshold : ℚ) : Except Exn (List NliRow) :=
  let snippets := (nli_snippets env review aspects).2
  match env.pipeline with
  | .error e => .error e
  | .ok _ => .ok (aspects.map fun a =>
      nli_aspect_row (env.zsc ((snippets.lookup a).getD review) a) threshold a)

/-! ## Remote Generative Strategy (src/sentiment_analyzer.py, lines 186-239) -/

/-- JSON values, the possible results of `json.loads`. -/
inductive JVal where
  | null : JVal
  | bool : Bool → JVal
  | num : ℚ → JVal
  | str : String → JVal
  | arr : List JVal → JVal
  | obj : List (String × JVal) → JVal
deriving Repr

/-- Strip the leading alternative of `re.sub(r"^```json\s*|\s*```$", "", txt,
flags=re.I)`: a literal triple backtick, the tag `json` in any letter case,
then any run of whitespace. -/
def stripLeadFence (l : List Char) : List Char :=
  if l.take 3 = "```".data ∧ ((l.drop 3).take 4).map Char.toLower = "json".data
  then (l.drop 7).dropWhile isPyWs
  else l

/-- Strip the trailing alternative `\s*```$` of the same substitution: a
trailing triple backtick preceded by optional whitespace.  Python's `$` (no
`re.M`) also matches just before one final newline, in which case that
newline survives the substitution. -/
def stripTrailFence (l : List Char) : List Char :=
  let r := l.reverse
  if r.take 3 = "```".data then ((r.drop 3).dropWhile isPyWs).reverse
  else if r.take 4 = ("\n".data ++ "```".data) then
    ((r.drop 4).dropWhile isPyWs).reverse ++ "\n".data
  else l

/-- Python `str.find(c)`: the index of the first occurrence, `none` standing
for `-1`. -/
def pyFindIdx (c : Char) : List Char → Option Nat
  | [] => none
  | d :: ds => if d = c then some 0 else (pyFindIdx c ds).map (· + 1)

/-- Python `str.rfind(c)`: the index of the last occurrence. -/
def pyRfindIdx (c : Char) (l : List Char) : Option Nat :=
  (pyFindIdx c l.reverse).map (fun i => l.length - 1 - i)

/-- The whole cleanup applied to `txt` at lines 230-233: remove the fence
markers (the regex substitution scans left to right, so the leading
alternative is applied before the trailing one), `strip()`, then slice from
the first `[` to the last `]` when both exist (`find` / `rfind`; the
truncated-`Nat` subtraction yields the empty slice exactly when Python's
`txt_clean[start; end + 1]` is empty for a reversed range). -/
def fenceAndBracket (txt : List Char) : List Char :=
  let t := stripChars (stripTrailFence (stripLeadFence txt))
  match pyFindIdx '[' t, pyRfindIdx ']' t with
  | some s, some e => (t.drop s).take (e + 1 - s)
  | _, _ => t

/-- The message of the `ValueError` raised at lines 237-239 when every parse
attempt failed: it embeds the first 200 characters of the raw response. -/
def llmParseErrMsg (txt : String) : String :=
  "Failed to parse OpenAI response as JSON. Response was: " ++ txt.take 200 ++ "..."

/-- The three-tier response parsing of `llm_aspect_sentiment` (lines
224-239), parametric in the JSON decoder `p` (Python's `json.loads`, an
external library modelled as an oracle; `none` models `json.JSONDecodeError`):
direct parse, then fence-stripped and bracket-extracted parse, then a
`ValueError` carrying a truncated excerpt of the response. -/
def parse_llm_response {J : Type} (p : String → Option J) (txt : String) :
    Except Exn J :=
  match p txt with
  | some v => .ok v
  | none =>
    match p (fenceAndBracket txt.data).asString with
    | some v => .ok v
    | none => .error ⟨"ValueError", llmParseErrMsg txt⟩

/-- External boundaries of `llm_aspect_sentiment`:
* `response` — the composition of `_get_openai_client()` (which raises a
  `ValueError` when the API key is missing) and the chat-completion request
  built from the review and the aspect list, returning
  `resp.choices[0].message.content`;
* `json_loads` — the JSON decoder. -/
structure LlmEnv where
  response : String → List String → Except Exn String
  json_loads : String → Option JVal

/-- `llm_aspect_sentiment` (lines 186-239): issue the request, strip the
response, parse it through the fallback chain.  The prompt is a pure function
of `review` and `aspects`, so the remote call is modelled directly as a
function of the two. -/
def llm_aspect_sentiment (env : LlmEnv) (review : String)
    (aspects : List String) : Except Exn JVal :=
  match env.response review aspects with
  | .error e => .error e
  | .ok content => parse_llm_response env.json_loads (pyStrip content)

/-! ## Analysis Orchestrator (src/sentiment_analyzer.py, lines 242-279) -/

/-- `DEFAULT_ASPECTS` (src/app/config.py, lines 11-18). -/
def DEFAULT_ASPECTS : List String :=
  ["acting_performances", "story_plot", "pacing", "visuals", "direction", "writing"]

/-- `DEFAULT_NLI_THRESHOLD = 0.55` (src/app/config.py, line 21). -/
def DEFAULT_NLI_THRESHOLD : ℚ := 55/100

/-- Python iteration `for d in data` over a decoded JSON value: lists yield
their elements, dicts their keys, strings their characters; every other value
raises a `TypeError`. -/
def pyIter : JVal → Except Exn (List JVal)
  | .arr xs => .ok xs
  | .obj kvs => .ok (kvs.map fun kv => JVal.str kv.1)
  | .str s => .ok (s.data.map fun c => JVal.str (String.singleton c))
  | _ => .error ⟨"TypeError", "object is not iterable"⟩

/-- `d.get(key, default)`: defined for dicts (duplicate keys cannot survive
`json.loads`, so first-match lookup is the dict lookup); any other value
raises an `AttributeError`. -/
def pyDictGet (d : JVal) (key : String) (dflt : JVal) : Except Exn JVal :=
  match d with
  | .obj kvs => .ok ((kvs.lookup key).getD dflt)
  | _ => .error ⟨"AttributeError", "object has no attribute get"⟩

/-- One row of the `pandas.DataFrame` returned by `analyze`: the two cells
keep the decoded JSON values the source puts in them. -/
structure OutRow where
  aspect : JVal
  sentiment : JVal
deriving Repr

/-- A row of `nli_aspect_sentiment` as the Python dict it is. -/
def NliRow.toJVal (r : NliRow) : JVal :=
  .obj [("aspect", .str r.aspect), ("sentiment", .str r.sentiment),
        ("confidence", .num r.confidence)]

/-- The defensive row normalization at lines 266-272: for each item, read the
`aspect` and `sentiment` fields with empty-string defaults.  The list
comprehension evaluates items left to right and the first exception aborts
it. -/
def normalizeRows : List JVal → Except Exn (List OutRow)
  | [] => .ok []
  | d :: ds => do
    let a ← pyDictGet d "aspect" (.str "")
    let s ← pyDictGet d "sentiment" (.str "")
    let rest ← normalizeRows ds
    return ⟨a, s⟩ :: rest

/-- The two strategy environments together. -/
structure AnalyzerEnv where
  nli : NliEnv
  llm : LlmEnv

/-- The body of `analyze`'s `try` block (lines 254-273): empty-review
short-circuit, default aspects, dispatch on the method string, then row
normalization.  `if not review` and `if not aspects` are the Python
truthiness tests on a string and a list. -/
def analyzeBody (env : AnalyzerEnv) (review : String) (aspects : List String)
    (method : String) : Except Exn (List OutRow) :=
  if review = "" then .ok [⟨.str "", .str "(no review)"⟩]
  else
    let aspects := if aspects = [] then DEFAULT_ASPECTS else aspects
    let data : Except Exn (List JVal) :=
      if method = "LLM (OpenAI)" then
        (llm_aspect_sentiment env.llm review aspects).bind pyIter
      else
        (nli_aspect_sentiment env.nli review aspects DEFAULT_NLI_THRESHOLD).map
          fun rows => rows.map NliRow.toJVal
    data.bind normalizeRows

/-- `analyze` (lines 242-279): the orchestrator.  Any exception escaping the
body is caught and rendered as the single `(error)` row, so the function is
total. -/
def analyze (env : AnalyzerEnv) (review : String) (aspects : List String)
    (method : String) : List OutRow :=
  match analyzeBody env review aspects method with
  | .ok t => t
  | .error e => [⟨.str "(error)", .str e.render⟩]

/-! ## Helper lemmas and witness environments -/

theorem nli_aspect_row_aspect (zr : Except Exn ZscRes) (threshold : ℚ)
    (a : String) : (nli_aspect_row zr threshold a).aspect = a := by
  unfold nli_aspect_row
  cases zr with
  | error e => rfl
  | ok res =>
    rcases res with ⟨labels, scores⟩
    cases labels <;> cases scores <;> rfl

theorem normalizeRows_toJVal (l : List NliRow) :
    normalizeRows (l.map NliRow.toJVal) =
      .ok (l.map fun r => ⟨.str r.aspect, .str r.sentiment⟩) := by
  induction l with
  | nil => rfl
  | cons r t ih =>
    have h1 : pyDictGet (NliRow.toJVal r) "aspect" (.str "") = .ok (.str r.aspect) := rfl
    have h2 : pyDictGet (NliRow.toJVal r) "sentiment" (.str "") = .ok (.str r.sentiment) := rfl
    simp only [List.map_cons, normalizeRows, h1, h2, ih]
    rfl

/-- A concrete environment for witness instantiations: segmentation returns
the review as one sentence, the classifier always answers `positive` at
confidence `0.9`, and the remote strategy fails for want of an API key. -/
def okEnv : AnalyzerEnv where
  nli :=
    { sent_tokenize := fun s => .ok [s]
      encode := fun _ _ => .ok fun _ _ => 0
      topk := fun _ _ => []
      pipeline := .ok ()
      zsc := fun _ _ => .ok ⟨["positive", "negative", "neutral"], [9/10, 1/20, 1/20]⟩ }
  llm :=
    { response := fun _ _ => .error ⟨"ValueError", "OpenAI API key not found."⟩
      json_loads := fun _ => none }

/-! ## Claims -/

/-- C8: for every aspect list and method, `analyze` on the empty review
returns the single row with empty aspect and sentiment `"(no review)"`. -/
theorem C8_empty_review (env : AnalyzerEnv) (aspects : List String)
    (method : String) :
    analyze env "" aspects method = [⟨.str "", .str "(no review)"⟩] := rfl

/-- C1: `analyze` never raises.  Whenever the analysis body raises an
exception `e` (strategy dispatch, model loading, network, parsing or row
normalization), `analyze` returns the single-row table whose aspect is
`"(error)"` and whose sentiment is the exception type name, `": "`, and the
message; and whenever the body completes, `analyze` returns its table
unchanged — so every outcome is a renderable table. -/
theorem C1_error_shielding (env : AnalyzerEnv) (review : String)
    (aspects : List String) (method : String) :
    (∀ e, analyzeBody env review aspects method = .error e →
      analyze env review aspects method =
        [⟨.str "(error)", .str (e.kind ++ ": " ++ e.msg)⟩]) ∧
    (∀ t, analyzeBody env review aspects method = .ok t →
      analyze env review aspects method = t) := by
  constructor
  · intro e h
    simp [analyze, h, Exn.render]
  · intro t h
    simp [analyze, h]

theorem C1_error_shielding_witness :
    analyze okEnv "some review" ["acting"] "LLM (OpenAI)" =
      [⟨.str "(error)", .str "ValueError: OpenAI API key not found."⟩] :=
  (C1_error_shielding okEnv "some review" ["acting"] "LLM (OpenAI)").1
    ⟨"ValueError", "OpenAI API key not found."⟩ rfl

/-- C10: the method selector is compared only against the exact string
`"LLM (OpenAI)"`; any other string (misspelled or unrecognized) is silently
dispatched to the local Zero-shot NLI strategy, identically to the canonical
local method string, and is never rejected with an error. -/
theorem C10_method_dispatch (env : AnalyzerEnv) (review : String)
    (aspects : List String) (method : String)
    (hm : method ≠ "LLM (OpenAI)") :
    analyze env review aspects method =
      analyze env review aspects "Zero-shot NLI (local)" ∧
    (review ≠ "" → analyzeBody env review aspects method =
      ((nli_aspect_sentiment env.nli review
          (if aspects = [] then DEFAULT_ASPECTS else aspects)
          DEFAULT_NLI_THRESHOLD).map
        (fun rows => rows.map NliRow.toJVal)).bind normalizeRows) := by
  have hz : ("Zero-shot NLI (local)" : String) ≠ "LLM (OpenAI)" := by decide
  constructor
  · simp [analyze, analyzeBody, hm, hz]
  · intro hr
    simp [analyzeBody, hm, hr]

theorem C10_method_dispatch_witness :
    analyze okEnv "fine movie" ["acting"] "Zero-shot NLI (typo)" =
      analyze okEnv "fine movie" ["acting"] "Zero-shot NLI (local)" :=
  (C10_method_dispatch okEnv "fine movie" ["acting"] "Zero-shot NLI (typo)"
    (by decide)).1

theorem nli_aspect_row_ok (threshold : ℚ) (a label : String) (ls : List String)
    (score : ℚ) (ss : List ℚ) (res : ZscRes)
    (hlab : res.labels = label :: ls) (hsc : res.scores = score :: ss) :
    nli_aspect_row (.ok res) threshold a =
      ⟨a, if score < threshold then "not_mentioned" else label, pyRound3 score⟩ := by
  rcases res with ⟨labels, scores⟩
  change labels = label :: ls at hlab
  change scores = score :: ss at hsc
  subst hlab
  subst hsc
  rfl

/-- C3: threshold semantics of the Local Classifier Strategy.  For an aspect
whose classification call succeeds (winning label `label` with winning score
`score`): below the threshold the emitted sentiment is `"not_mentioned"`
whatever `label` is; at or above the threshold it is exactly `label`, hence
never `"not_mentioned"` via the override when `label` is one of the three
candidate sentiments.  The final conjunct ties the per-aspect function to
`nli_aspect_sentiment` itself. -/
theorem C3_threshold_semantics (env : NliEnv) (review : String)
    (aspects : List String) (threshold : ℚ) (a label : String)
    (ls : List String) (score : ℚ) (ss : List ℚ) (res : ZscRes)
    (hres : res.labels = label :: ls ∧ res.scores = score :: ss) :
    ((score < threshold →
        (nli_aspect_row (.ok res) threshold a).sentiment = "not_mentioned") ∧
     (threshold ≤ score →
        (nli_aspect_row (.ok res) threshold a).sentiment = label) ∧
     (threshold ≤ score → label ∈ sentiments →
        (nli_aspect_row (.ok res) threshold a).sentiment ≠ "not_mentioned")) ∧
    (env.pipeline = .ok () →
      nli_aspect_sentiment env review aspects threshold =
        .ok (aspects.map fun x =>
          nli_aspect_row (env.zsc (pySnippet env review aspects x) x) threshold x)) := by
  obtain ⟨hlab, hsc⟩ := hres
  have hrow := nli_aspect_row_ok threshold a label ls score ss res hlab hsc
  refine ⟨⟨?_, ?_, ?_⟩, ?_⟩
  · intro hlt
    rw [hrow]
    simp [hlt]
  · intro hge
    rw [hrow]
    simp [not_lt.mpr hge]
  · intro hge hmem
    rw [hrow]
    simp only [not_lt.mpr hge, if_false]
    simp only [sentiments, List.mem_cons, List.mem_singleton] at hmem
    rcases hmem with h | h | h | h
    · subst h; decide
    · subst h; decide
    · subst h; decide
    · cases h
  · intro hp
    unfold nli_aspect_sentiment pySnippet
    rw [hp]

theorem C3_threshold_semantics_witness :
    (nli_aspect_row
        (.ok ⟨["positive", "negative", "neutral"], [9/10, 1/20, 1/20]⟩)
        (55/100) "acting").sentiment = "positive" :=
  ((C3_threshold_semantics okEnv.nli "r" ["acting"] (55/100) "acting" "positive"
      ["negative", "neutral"] (9/10) [1/20, 1/20]
      ⟨["positive", "negative", "neutral"], [9/10, 1/20, 1/20]⟩
      ⟨rfl, rfl⟩).1.2.1 (by norm_num))

/-- C4: per-aspect failure isolation in the Local Classifier Strategy.  When
the pipeline loads, the result rows are exactly one independent row per
aspect in order; an aspect whose classification call raises gets the row
`{aspect, "error", 0.0}`, while every aspect whose call succeeds with a
nonempty ranking gets its ordinary thresholded row — so one aspect's failure
never aborts or perturbs the others. -/
theorem C4_per_aspect_isolation (env : NliEnv) (review : String)
    (aspects : List String) (threshold : ℚ)
    (hp : env.pipeline = .ok ()) :
    nli_aspect_sentiment env review aspects threshold =
      .ok (aspects.map fun a =>
        nli_aspect_row (env.zsc (pySnippet env review aspects a) a) threshold a) ∧
    (∀ a e, env.zsc (pySnippet env review aspects a) a = .error e →
      nli_aspect_row (env.zsc (pySnippet env review aspects a) a) threshold a =
        ⟨a, "error", 0⟩) ∧
    (∀ a label ls score ss res,
      env.zsc (pySnippet env review aspects a) a = .ok res →
      res.labels = label :: ls → res.scores = score :: ss →
      nli_aspect_row (env.zsc (pySnippet env review aspects a) a) threshold a =
        ⟨a, if score < threshold then "not_mentioned" else label, pyRound3 score⟩) := by
  refine ⟨?_, ?_, ?_⟩
  · unfold nli_aspect_sentiment pySnippet
    rw [hp]
  · intro a e h
    rw [h]
    rfl
  · intro a label ls score ss res h hlab hsc
    rw [h]
    exact nli_aspect_row_ok threshold a label ls score ss res hlab hsc

/-- A classifier that fails on the aspect `"pacing"` only, used to witness
per-aspect isolation. -/
def isoEnv : NliEnv :=
  { sent_tokenize := fun s => .ok [s]
    encode := fun _ _ => .ok fun _ _ => 0
    topk := fun _ _ => []
    pipeline := .ok ()
    zsc := fun _ a =>
      if a = "pacing" then .error ⟨"RuntimeError", "classifier crashed"⟩
      else .ok ⟨["positive", "negative", "neutral"], [9/10, 1/20, 1/20]⟩ }

theorem C4_per_aspect_isolation_witness :
    nli_aspect_sentiment isoEnv "r" ["acting", "pacing", "visuals"] (55/100) =
      .ok [⟨"acting", "positive", 9/10⟩, ⟨"pacing", "error", 0⟩,
           ⟨"visuals", "positive", 9/10⟩] := by
  rw [(C4_per_aspect_isolation isoEnv "r" ["acting", "pacing", "visuals"]
    (55/100) rfl).1]
  have h1 : ((9:Rat)/10 < 55/100) = False := by norm_num
  have h2 : pyRound3 (9/10) = 9/10 := by
    unfold pyRound3 roundHalfEven
    norm_num
  simp only [List.map_cons, List.map_nil]
  rw [show isoEnv.zsc (pySnippet isoEnv "r" ["acting", "pacing", "visuals"] "acting") "acting" = .ok ⟨["positive", "negative", "neutral"], [9/10, 1/20, 1/20]⟩ from rfl]
  rw [show isoEnv.zsc (pySnippet isoEnv "r" ["acting", "pacing", "visuals"] "pacing") "pacing" = .error ⟨"RuntimeError", "classifier crashed"⟩ from rfl]
  rw [show isoEnv.zsc (pySnippet isoEnv "r" ["acting", "pacing", "visuals"] "visuals") "visuals" = .ok ⟨["positive", "negative", "neutral"], [9/10, 1/20, 1/20]⟩ from rfl]
  rw [nli_aspect_row_ok (55/100) "acting" "positive" ["negative", "neutral"] (9/10) [1/20, 1/20] _ rfl rfl]
  rw [nli_aspect_row_ok (55/100) "visuals" "positive" ["negative", "neutral"] (9/10) [1/20, 1/20] _ rfl rfl]
  rw [h2]
  simp only [h1, if_false]
  rfl

/-- C2: with the Local (Zero-shot NLI) strategy, for every non-empty review
and non-empty aspect list (and a loadable pipeline, the strategy's external
precondition), `analyze` returns exactly one row per requested aspect, and
the aspect column top to bottom is the input aspect sequence in the caller's
order — whatever the individual classification calls do. -/
theorem C2_local_row_order (env : AnalyzerEnv) (review : String)
    (aspects : List String) (h1 : review ≠ "") (h2 : aspects ≠ [])
    (hp : env.nli.pipeline = .ok ()) :
    (analyze env review aspects "Zero-shot NLI (local)").length = aspects.length ∧
    (analyze env review aspects "Zero-shot NLI (local)").map OutRow.aspect =
      aspects.map JVal.str := by
  have hz : ¬ (("Zero-shot NLI (local)" : String) = "LLM (OpenAI)") := by decide
  have hnli : nli_aspect_sentiment env.nli review aspects DEFAULT_NLI_THRESHOLD =
      .ok (aspects.map fun a =>
        nli_aspect_row (env.nli.zsc (pySnippet env.nli review aspects a) a)
          DEFAULT_NLI_THRESHOLD a) := by
    unfold nli_aspect_sentiment pySnippet
    rw [hp]
  have hbody : analyzeBody env review aspects "Zero-shot NLI (local)" =
      .ok (aspects.map fun a =>
        (⟨.str (nli_aspect_row (env.nli.zsc (pySnippet env.nli review aspects a) a)
            DEFAULT_NLI_THRESHOLD a).aspect,
          .str (nli_aspect_row (env.nli.zsc (pySnippet env.nli review aspects a) a)
            DEFAULT_NLI_THRESHOLD a).sentiment⟩ : OutRow)) := by
    simp only [analyzeBody, if_neg h1, if_neg h2, if_neg hz, hnli, Except.map,
      Except.bind]
    rw [normalizeRows_toJVal]
    simp [List.map_map, Function.comp]
  unfold analyze
  rw [hbody]
  constructor
  · simp
  · simp [List.map_map, nli_aspect_row_aspect]

theorem C2_local_row_order_witness :
    (analyze okEnv "good movie" ["acting", "pacing"] "Zero-shot NLI (local)").length = 2 ∧
    (analyze okEnv "good movie" ["acting", "pacing"] "Zero-shot NLI (local)").map
        OutRow.aspect = [JVal.str "acting", JVal.str "pacing"] :=
  C2_local_row_order okEnv "good movie" ["acting", "pacing"]
    (by decide) (by decide) rfl

/-- A local-strategy environment whose sentence segmentation always raises,
and whose classifier echoes the text it was given as the winning label, so
that the classifier input is visible in the produced rows. -/
def segFailEnv : NliEnv :=
  { sent_tokenize := fun _ => .error ⟨"LookupError", "punkt not found"⟩
    encode := fun _ _ => .ok fun _ _ => 0
    topk := fun _ _ => []
    pipeline := .ok ()
    zsc := fun text _ => .ok ⟨[text], [1]⟩ }

/-- C5 counterexample: the claim says that on a preprocessing exception the
strategy falls back to the RAW review text as every aspect's snippet.  With
segmentation raising on the review `"Good.<br/>Bad."`, the snippet handed to
classification is the CLEANED text `"Good. Bad."`, which differs from the raw
review — the fallback at line 160 uses `cleaned` (already reassigned to
`clean_text(review)` at line 145), not `review`. -/
theorem C5_counterexample :
    segFailEnv.sent_tokenize (clean_text "Good.<br/>Bad.") =
      .error ⟨"LookupError", "punkt not found"⟩ ∧
    pySnippet segFailEnv "Good.<br/>Bad." ["acting"] "acting" = "Good. Bad." ∧
    pySnippet segFailEnv "Good.<br/>Bad." ["acting"] "acting" ≠ "Good.<br/>Bad." :=
  ⟨rfl, by decide, by decide⟩

/-- C5 (amended): if segmentation or embedding raises, the Local Classifier
Strategy does not abort: it falls back to using the CLEANED review text
(`clean_text(review)`; the raw review only if cleaning itself had raised) as
every aspect's snippet and continues to classification, still producing one
row per aspect when the pipeline loads. -/
theorem C5_preprocessing_fallback (env : NliEnv) (review : String)
    (aspects : List String) (threshold : ℚ)
    (hfail : (∃ e, env.sent_tokenize (clean_text review) = .error e) ∨
      (∃ sentences e, env.sent_tokenize (clean_text review) = .ok sentences ∧
        3 < sentences.length ∧ env.encode sentences aspects = .error e)) :
    (nli_snippets env review aspects).2 =
      aspects.map (fun a => (a, clean_text review)) ∧
    (env.pipeline = .ok () →
      nli_aspect_sentiment env review aspects threshold =
        .ok (aspects.map fun a =>
          nli_aspect_row (env.zsc (pySnippet env review aspects a) a) threshold a)) := by
  constructor
  · rcases hfail with ⟨e, he⟩ | ⟨sentences, e, hok, hlen, henc⟩
    · simp only [nli_snippets, he]
    · simp only [nli_snippets, hok, if_neg (show ¬ sentences.length ≤ 3 by omega), henc]
  · intro hp
    unfold nli_aspect_sentiment pySnippet
    rw [hp]

theorem C5_preprocessing_fallback_witness :
    (nli_snippets segFailEnv "Good.<br/>Bad." ["acting", "pacing"]).2 =
      [("acting", "Good. Bad."), ("pacing", "Good. Bad.")] := by
  have h := (C5_preprocessing_fallback segFailEnv "Good.<br/>Bad."
    ["acting", "pacing"] (55/100)
    (Or.inl ⟨⟨"LookupError", "punkt not found"⟩, rfl⟩)).1
  rw [h]
  decide

/-! ## C6: fence-stripping equivalence of the remote response parser -/

/-- A remote response wrapping `s` in leading/trailing triple-backtick code
fences, on its own lines, with (`tag = true`) or without the `json` tag. -/
def wrapFence (tag : Bool) (s : String) : String :=
  "```" ++ (if tag then "json" else "") ++ "\n" ++ s ++ "\n```"

theorem asString_data (s : String) : s.data.asString = s := rfl

theorem stripChars_of_nonws {c d : Char} {m : List Char}
    (hc : ¬ isPyWs c) (hd : ¬ isPyWs d) :
    stripChars (c :: (m ++ [d])) = c :: (m ++ [d]) := by
  unfold stripChars
  rw [List.dropWhile_cons, if_neg hc]
  have h1 : (c :: (m ++ [d])).reverse = d :: (m.reverse ++ [c]) := by simp
  rw [h1, List.dropWhile_cons, if_neg hd]
  simp

theorem wrapFence_data_json (s : String) :
    (wrapFence true s).data =
      '`' :: '`' :: '`' :: 'j' :: 's' :: 'o' :: 'n' :: '\n' ::
        (s.data ++ ['\n', '`', '`', '`']) := rfl

theorem wrapFence_data_plain (s : String) :
    (wrapFence false s).data =
      '`' :: '`' :: '`' :: '\n' :: (s.data ++ ['\n', '`', '`', '`']) := rfl

theorem fenceAndBracket_wrap (tag : Bool) (s : String) (mid : List Char)
    (hs : s.data = '[' :: (mid ++ [']'])) :
    fenceAndBracket (wrapFence tag s).data = s.data := by
  have hmid : ∀ X : List Char, s.data ++ X = '[' :: (mid ++ ([']'] ++ X)) := by
    intro X
    rw [hs]
    simp
  cases tag
  · -- no json tag: the leading alternative does not fire, the bracket
    -- extraction recovers the payload
    rw [wrapFence_data_plain, hmid]
    have hlead : stripLeadFence
        ('`' :: '`' :: '`' :: '\n' :: '[' :: (mid ++ ([']'] ++ ['\n', '`', '`', '`']))) =
        '`' :: '`' :: '`' :: '\n' :: '[' :: (mid ++ ([']'] ++ ['\n', '`', '`', '`'])) := by
      unfold stripLeadFence
      rw [if_neg]
      intro hcond
      have h2 := hcond.2
      simp only [List.drop_succ_cons, List.drop_zero, List.take_succ_cons,
        List.map_cons] at h2
      have : '\n'.toLower = 'j' := by
        have := congrArg List.head? h2
        simpa using this
      exact absurd this (by decide)
    have hrev : ('`' :: '`' :: '`' :: '\n' :: '[' ::
        (mid ++ ([']'] ++ ['\n', '`', '`', '`']))).reverse =
        '`' :: '`' :: '`' :: '\n' :: ']' :: (mid.reverse ++ ['[', '\n', '`', '`', '`']) := by
      simp
    have htrail : stripTrailFence
        ('`' :: '`' :: '`' :: '\n' :: '[' :: (mid ++ ([']'] ++ ['\n', '`', '`', '`']))) =
        '`' :: '`' :: '`' :: '\n' :: '[' :: (mid ++ [']']) := by
      unfold stripTrailFence
      rw [hrev]
      simp only [List.take_succ_cons, List.take_zero, List.drop_succ_cons,
        List.drop_zero]
      rw [if_pos trivial]
      rw [List.dropWhile_cons, if_pos (by decide), List.dropWhile_cons,
        if_neg (by decide)]
      simp
    have hstrip : stripChars ('`' :: '`' :: '`' :: '\n' :: '[' :: (mid ++ [']'])) =
        '`' :: '`' :: '`' :: '\n' :: '[' :: (mid ++ [']']) := by
      have := @stripChars_of_nonws '`' ']'
        ('`' :: '`' :: '\n' :: '[' :: mid) (by decide) (by decide)
      simpa using this
    have hfind : pyFindIdx '[' ('`' :: '`' :: '`' :: '\n' :: '[' :: (mid ++ [']'])) =
        some 4 := by
      simp [pyFindIdx]
    have hrev2 : ('`' :: '`' :: '`' :: '\n' :: '[' :: (mid ++ [']'])).reverse =
        ']' :: (mid.reverse ++ ['[', '\n', '`', '`', '`']) := by simp
    have hrfind : pyRfindIdx ']' ('`' :: '`' :: '`' :: '\n' :: '[' :: (mid ++ [']'])) =
        some (mid.length + 5) := by
      unfold pyRfindIdx
      rw [hrev2]
      simp [pyFindIdx]
    simp only [fenceAndBracket, hlead, htrail, hstrip, hfind, hrfind]
    have hlen : mid.length + 5 + 1 - 4 = mid.length + 2 := by omega
    rw [hlen]
    simp only [List.drop_succ_cons, List.drop_zero]
    rw [hs]
    have hl2 : ('[' :: (mid ++ [']'])).length = mid.length + 2 := by simp
    rw [← hl2, List.take_length]
  · -- json tag: the leading alternative strips the fence opener, the
    -- trailing alternative strips the closer, the brackets are a no-op
    rw [wrapFence_data_json, hmid]
    have hlead : stripLeadFence
        ('`' :: '`' :: '`' :: 'j' :: 's' :: 'o' :: 'n' :: '\n' ::
          ('[' :: (mid ++ ([']'] ++ ['\n', '`', '`', '`'])))) =
        '[' :: (mid ++ ([']'] ++ ['\n', '`', '`', '`'])) := by
      unfold stripLeadFence
      rw [if_pos (by exact ⟨rfl, rfl⟩)]
      simp only [List.drop_succ_cons, List.drop_zero]
      rw [List.dropWhile_cons, if_pos (by decide), List.dropWhile_cons,
        if_neg (by decide)]
    have hrev : ('[' :: (mid ++ ([']'] ++ ['\n', '`', '`', '`']))).reverse =
        '`' :: '`' :: '`' :: '\n' :: ']' :: (mid.reverse ++ ['[']) := by
      simp
    have htrail : stripTrailFence ('[' :: (mid ++ ([']'] ++ ['\n', '`', '`', '`']))) =
        '[' :: (mid ++ [']']) := by
      unfold stripTrailFence
      rw [hrev]
      simp only [List.take_succ_cons, List.take_zero, List.drop_succ_cons,
        List.drop_zero]
      rw [if_pos trivial]
      rw [List.dropWhile_cons, if_pos (by decide), List.dropWhile_cons,
        if_neg (by decide)]
      simp
    have hstrip : stripChars ('[' :: (mid ++ [']'])) = '[' :: (mid ++ [']']) :=
      stripChars_of_nonws (by decide) (by decide)
    have hfind : pyFindIdx '[' ('[' :: (mid ++ [']'])) = some 0 := by
      simp [pyFindIdx]
    have hrev2 : ('[' :: (mid ++ [']'])).reverse = ']' :: (mid.reverse ++ ['[']) := by
      simp
    have hrfind : pyRfindIdx ']' ('[' :: (mid ++ [']'])) = some (mid.length + 1) := by
      unfold pyRfindIdx
      rw [hrev2]
      simp [pyFindIdx]
    simp only [fenceAndBracket, hlead, htrail, hstrip, hfind, hrfind]
    simp only [List.drop_zero]
    rw [hs]
    have hl2 : ('[' :: (mid ++ [']'])).length = mid.length + 2 := by simp
    have harg : mid.length + 1 + 1 - 0 = ('[' :: (mid ++ [']'])).length := by
      rw [hl2]
      omega
    rw [harg, List.take_length]

/-- C6: Remote Strategy response parsing.  For every valid JSON array text
(a string of the shape `[...]`), wrapping it in leading/trailing
triple-backtick code fences — with or without the `json` tag — still parses,
and yields exactly the value of the unwrapped text (the decoder `p` is
quantified over, with its two documented facts at these inputs: it accepts
the array text and rejects the fenced wrapper).  And when every parse
attempt fails, the raised `ValueError`'s message is the fixed prefix
followed by the first 200 characters of the raw response. -/
theorem C6_fence_parsing {J : Type} (p : String → Option J) :
    (∀ (tag : Bool) (s : String) (mid : List Char) (v : J),
      s.data = '[' :: (mid ++ [']']) → p s = some v →
      p (wrapFence tag s) = none →
      parse_llm_response p (wrapFence tag s) = .ok v ∧
        parse_llm_response p s = .ok v) ∧
    (∀ txt : String, p txt = none →
      p (fenceAndBracket txt.data).asString = none →
      parse_llm_response p txt = .error ⟨"ValueError", llmParseErrMsg txt⟩ ∧
        llmParseErrMsg txt =
          "Failed to parse OpenAI response as JSON. Response was: " ++
            txt.take 200 ++ "...") := by
  constructor
  · intro tag s mid v hs hps hpw
    constructor
    · unfold parse_llm_response
      rw [hpw, fenceAndBracket_wrap tag s mid hs, asString_data, hps]
    · unfold parse_llm_response
      rw [hps]
  · intro txt h1 h2
    constructor
    · unfold parse_llm_response
      rw [h1, h2]
    · rfl

/-- A toy decoder accepting exactly the text `"[1]"`, for the witness. -/
def jsonProbe : String → Option Unit :=
  fun t => if t = "[1]" then some () else none

set_option maxRecDepth 4000 in
theorem C6_fence_parsing_witness :
    (parse_llm_response jsonProbe (wrapFence true "[1]") = .ok () ∧
     parse_llm_response jsonProbe "[1]" = .ok ()) ∧
    parse_llm_response jsonProbe "oops" =
      .error ⟨"ValueError",
        "Failed to parse OpenAI response as JSON. Response was: oops..."⟩ :=
  ⟨(C6_fence_parsing jsonProbe).1 true "[1]" ['1'] () rfl rfl rfl,
   ((C6_fence_parsing jsonProbe).2 "oops" rfl rfl).1⟩

/-! ## C9: idempotence of `clean_text` on line-break markup and whitespace -/

/-- The strings matched by the line-break regex `<br\s*/?>`: `<br`, any
whitespace run, an optional slash, `>`. -/
inductive BrTok : List Char → Prop
  | mk (ws : List Char) (slash : Bool) (hws : ∀ c ∈ ws, isPyWs c = true) :
      BrTok ('<' :: 'b' :: 'r' :: (ws ++ (if slash then ['/', '>'] else ['>'])))

/-- Inputs containing only line-break markup and whitespace irregularities:
concatenations of `<br...>` tokens and whitespace characters. -/
inductive BrWs : List Char → Prop
  | nil : BrWs []
  | ws {c : Char} {cs : List Char} : isPyWs c = true → BrWs cs → BrWs (c :: cs)
  | br {t cs : List Char} : BrTok t → BrWs cs → BrWs (t ++ cs)

theorem dropWhile_append_all {p : Char → Bool} {ws : List Char}
    (h : ∀ c ∈ ws, p c = true) (l : List Char) :
    (ws ++ l).dropWhile p = l.dropWhile p := by
  induction ws with
  | nil => rfl
  | cons c cs ih =>
    rw [List.cons_append, List.dropWhile_cons, if_pos (h c (by simp))]
    exact ih fun d hd => h d (by simp [hd])

theorem matchBr_brTok {t : List Char} (ht : BrTok t) (cs : List Char) :
    matchBr (t ++ cs) = some cs := by
  rcases ht with ⟨ws, slash, hws⟩
  cases slash
  · simp only [Bool.false_eq_true, if_false]
    unfold matchBr
    rw [if_pos (by simp)]
    have hdrop : (('<' :: 'b' :: 'r' :: (ws ++ ['>'])) ++ cs).drop 3 =
        ws ++ ('>' :: cs) := by simp
    rw [hdrop, dropWhile_append_all hws]
    rw [show ('>' :: cs).dropWhile isPyWs = '>' :: cs from by
      rw [List.dropWhile_cons, if_neg (by decide)]]
    have hne : ¬ (('>' :: cs).take 2 = ['/', '>']) := by
      simp only [List.take_succ_cons]
      intro hcon
      have h3 := congrArg List.head? hcon
      simp at h3
    have hpos : ('>' :: cs).take 1 = ['>'] := by simp
    rw [if_neg hne, if_pos hpos]
    simp
  · simp only [if_true]
    unfold matchBr
    rw [if_pos (by simp)]
    have hdrop : (('<' :: 'b' :: 'r' :: (ws ++ ['/', '>'])) ++ cs).drop 3 =
        ws ++ ('/' :: '>' :: cs) := by simp
    rw [hdrop, dropWhile_append_all hws]
    rw [show ('/' :: '>' :: cs).dropWhile isPyWs = '/' :: '>' :: cs from by
      rw [List.dropWhile_cons, if_neg (by decide)]]
    have hpos : ('/' :: '>' :: cs).take 2 = ['/', '>'] := by simp
    rw [if_pos hpos]
    simp

theorem matchBr_ws_none {c : Char} {cs : List Char} (h : isPyWs c = true) :
    matchBr (c :: cs) = none := by
  unfold matchBr
  rw [if_neg]
  intro hcon
  simp only [List.take_succ_cons] at hcon
  have hc : c = '<' := by
    have := congrArg List.head? hcon
    simpa using this
  subst hc
  exact absurd h (by decide)

theorem isPyWs_char_cases {c : Char} (h : isPyWs c = true) :
    c = ' ' ∨ c = '\t' ∨ c = '\n' ∨ c = '\r' ∨ c = '\x0b' ∨ c = '\x0c' := by
  unfold isPyWs at h
  simp only [Bool.or_eq_true, decide_eq_true_eq] at h
  tauto

theorem subBr_BrWs {l : List Char} (h : BrWs l) :
    ∀ c ∈ subBr l, isPyWs c = true := by
  induction h with
  | nil => intro c hc; rw [subBr_nil] at hc; cases hc
  | ws hw _ ih =>
    rename_i d ds
    intro c hc
    rw [subBr_nomatch (matchBr_ws_none hw)] at hc
    rcases List.mem_cons.mp hc with h1 | h1
    · exact h1 ▸ hw
    · exact ih c h1
  | br ht _ ih =>
    intro c hc
    rw [subBr_match (matchBr_brTok ht _)] at hc
    rcases List.mem_cons.mp hc with h1 | h1
    · rw [h1]; decide
    · exact ih c h1

theorem isSentEnd_of_ws {c : Char} (h : isPyWs c = true) : isSentEnd c = false := by
  rcases isPyWs_char_cases h with h1 | h1 | h1 | h1 | h1 | h1 <;> subst h1 <;> decide

theorem subPunct_allws {l : List Char} (h : ∀ c ∈ l, isPyWs c = true) :
    subPunct l = l := by
  induction l with
  | nil => rfl
  | cons c cs ih =>
    unfold subPunct
    rw [if_neg]
    · rw [ih fun d hd => h d (by simp [hd])]
    · rw [isSentEnd_of_ws (h c (by simp))]
      simp

theorem collapseWs_allws {l : List Char} (h : ∀ c ∈ l, isPyWs c = true) :
    collapseWs l = if l = [] then [] else [' '] := by
  cases l with
  | nil => rfl
  | cons c cs =>
    rw [collapseWs_ws (h c (by simp)), if_neg (by simp)]
    have hnil : cs.dropWhile isPyWs = [] :=
      List.dropWhile_eq_nil_iff.mpr fun d hd => h d (by simp [hd])
    rw [hnil, collapseWs_nil]

theorem cleanList_BrWs {l : List Char} (h : BrWs l) : cleanList l = [] := by
  unfold cleanList
  have h1 := subBr_BrWs h
  rw [subPunct_allws h1, collapseWs_allws h1]
  by_cases h2 : subBr l = []
  · rw [if_pos h2]; rfl
  · rw [if_neg h2]; rfl

/-- C9: `clean_text` is idempotent on every input that contains only
line-break markup and whitespace irregularities (concatenations of
`<br\s*/?>` tokens and whitespace characters; on that domain one cleaning
pass already normalizes everything away). -/
theorem C9_clean_text_idempotent (x : String) (hx : BrWs x.data) :
    clean_text (clean_text x) = clean_text x := by
  unfold clean_text
  rw [cleanList_BrWs hx]
  rfl

theorem C9_clean_text_idempotent_witness :
    clean_text (clean_text "<br/> \n<br >") = clean_text "<br/> \n<br >" :=
  C9_clean_text_idempotent "<br/> \n<br >"
    (show BrWs (('<' :: 'b' :: 'r' :: (([] : List Char) ++ ['/', '>'])) ++
        (' ' :: '\n' :: (('<' :: 'b' :: 'r' :: ([' '] ++ ['>'])) ++ []))) from
      BrWs.br (BrTok.mk [] true (by simp))
        (BrWs.ws (by decide) (BrWs.ws (by decide)
          (BrWs.br (BrTok.mk [' '] false (by decide)) BrWs.nil))))
